import Mathlib

/-! Shallow embedding of the domain-discovery / component-loading module of
`@burgan-tech/vnext-sys-flow` (the `index.js` entry point), together with
proofs about its behaviour.

The module reads the filesystem through four primitives (`fs.readdirSync`
with `withFileTypes`, `fs.existsSync`, `fs.readFileSync`, `JSON.parse`);
we model the ambient filesystem plus the JSON parser as a structure of
abstract functions, with `none` standing for a thrown exception
(`readdirSync` / `readFileSync` throwing, `JSON.parse` raising a
`SyntaxError`).  Functions of the module that can let an exception escape
return `Except Unit _`; `console.warn` output is modelled as an explicit
list of the names of the files that failed to load.
-/

namespace VnextSysFlow

/-- JSON values, as produced by `JSON.parse`. -/
inductive Json where
  | null : Json
  | bool : Bool → Json
  | num : Int → Json
  | str : String → Json
  | arr : List Json → Json
  | obj : List (String × Json) → Json

/-- The kind of a directory entry (`fs.Dirent`): directory, regular file,
or anything else (symlink, socket, ...). -/
inductive EntryKind where
  | dir : EntryKind
  | file : EntryKind
  | other : EntryKind
deriving DecidableEq, Repr

/-- A directory entry as returned by `fs.readdirSync(p, { withFileTypes: true })`. -/
structure Dirent where
  name : String
  kind : EntryKind
deriving DecidableEq, Repr

/-- JavaScript `entry.isDirectory()`. -/
def Dirent.isDirectory (e : Dirent) : Bool :=
  match e.kind with
  | .dir => true
  | _ => false

/-- JavaScript `entry.isFile()`. -/
def Dirent.isFile (e : Dirent) : Bool :=
  match e.kind with
  | .file => true
  | _ => false

/-- The ambient filesystem state plus the JSON parser, as seen through the
four primitives the module calls.  `none` models a thrown exception. -/
structure FS where
  readdir : String → Option (List Dirent)
  existsSync : String → Bool
  readFile : String → Option String
  parse : String → Option Json

/-- Node `path.join(a, b)` for the simple relative segments the module joins. -/
def pathJoin (a b : String) : String :=
  a ++ "/" ++ b

/-- JavaScript `s.startsWith(pre)`, over the characters of the strings. -/
def strStartsWith (s pre : String) : Bool :=
  List.isPrefixOf pre.data s.data

/-- JavaScript `s.endsWith(suf)`, over the characters of the strings. -/
def strEndsWith (s suf : String) : Bool :=
  List.isSuffixOf suf.data s.data

/-- Remove the first occurrence of `pat` from a character list
(JavaScript `String.prototype.replace` with a string pattern and an empty
replacement replaces only the first occurrence). -/
def removeFirstOcc (pat : List Char) : List Char → List Char
  | [] => []
  | c :: rest =>
    if List.isPrefixOf pat (c :: rest) then List.drop pat.length (c :: rest)
    else c :: removeFirstOcc pat rest

/-- JavaScript string replace with an empty replacement: remove the first occurrence of
`pat` from `s` (the whole string is returned unchanged when `pat` does not
occur). -/
def jsReplaceFirst (s pat : String) : String :=
  ⟨removeFirstOcc pat.data s.data⟩

/-- Assignment `files[baseName] = content` on a JavaScript object modelled as an
association list: an existing key keeps its position and gets the new
value, a new key is appended at the end. -/
def upsert (k : String) (v : Json) : List (String × Json) → List (String × Json)
  | [] => [(k, v)]
  | (k', v') :: rest =>
    if k' = k then (k, v) :: rest else (k', v') :: upsert k v rest

/-- The filter of the `findDomainDirectory` loop: the entry is a
directory, its name does not start with `.`, and it is neither
`node_modules` nor `dist`. -/
def domainFilter (e : Dirent) : Bool :=
  e.isDirectory && !(strStartsWith e.name ".") &&
    e.name != "node_modules" && e.name != "dist"

/-- The marker test of `findDomainDirectory`: one of the three paths
`<domainPath>/Schemas`, `<domainPath>/Workflows`, `<domainPath>/Tasks`
exists (`fs.existsSync` only — no check that the marker is a directory). -/
def hasVnextMarker (fs : FS) (domainPath : String) : Bool :=
  fs.existsSync (pathJoin domainPath "Schemas") ||
    fs.existsSync (pathJoin domainPath "Workflows") ||
    fs.existsSync (pathJoin domainPath "Tasks")

/-- The `for (const entry of entries)` loop of `findDomainDirectory`:
return the name of the first entry passing `domainFilter` whose name
carries a vNext marker; `none` when the loop falls through. -/
def findDomainLoop (fs : FS) : List Dirent → Option String
  | [] => none
  | e :: rest =>
    if domainFilter e then
      if hasVnextMarker fs e.name then some e.name
      else findDomainLoop fs rest
    else findDomainLoop fs rest

/-- Function `findDomainDirectory()`: list the working directory and run the loop.
A failure of `fs.readdirSync('.')` is not caught and propagates. -/
def findDomainDirectory (fs : FS) : Except Unit (Option String) :=
  match fs.readdir "." with
  | none => .error ()
  | some entries => .ok (findDomainLoop fs entries)

/-- One iteration of the `loadJsonFiles` loop on accumulator
`(files, warnings)`: entries that are not regular files or whose name
does not end in `.json` are skipped; otherwise the file is read and
parsed inside a `try`, a success stores the value under
`entry.name.replace('.json', '')`, and any failure appends a
`console.warn` record for `entry.name`. -/
def loadEntry (fs : FS) (dirPath : String) (acc : List (String × Json) × List String)
    (e : Dirent) : List (String × Json) × List String :=
  if e.isFile && strEndsWith e.name ".json" then
    match fs.readFile (pathJoin dirPath e.name) with
    | none => (acc.1, acc.2 ++ [e.name])
    | some content =>
      match fs.parse content with
      | none => (acc.1, acc.2 ++ [e.name])
      | some v => (upsert (jsReplaceFirst e.name ".json") v acc.1, acc.2)
  else acc

/-- Function `loadJsonFiles(dirPath)`: empty result when `dirPath` does not exist;
otherwise fold the loop body over the directory listing.  The first
component is the returned mapping, the second the `console.warn` log.  A
failure of `fs.readdirSync(dirPath)` itself is outside the `try` and
propagates. -/
def loadJsonFiles (fs : FS) (dirPath : String) :
    Except Unit (List (String × Json) × List String) :=
  if !fs.existsSync dirPath then .ok ([], [])
  else
    match fs.readdir dirPath with
    | none => .error ()
    | some entries => .ok (entries.foldl (loadEntry fs dirPath) ([], []))

/-- Function `getDomainConfig()`: read and parse `vnext.config.json` inside a try that returns null on any read or parse failure. -/
def getDomainConfig (fs : FS) : Option Json :=
  match fs.readFile "vnext.config.json" with
  | none => none
  | some content => fs.parse content

/-- The shared shape of the six component accessors:
`const domainDir = findDomainDirectory(); if (!domainDir) return {};
return loadJsonFiles(path.join(domainDir, sub));` — note that JavaScript
`!domainDir` is also true for the empty string. -/
def componentAccessor (fs : FS) (sub : String) :
    Except Unit (List (String × Json) × List String) :=
  match findDomainDirectory fs with
  | .error e => .error e
  | .ok none => .ok ([], [])
  | .ok (some d) => if d = "" then .ok ([], []) else loadJsonFiles fs (pathJoin d sub)

/-- Accessor `getSchemas()`. -/
def getSchemas (fs : FS) : Except Unit (List (String × Json) × List String) :=
  componentAccessor fs "Schemas"

/-- Accessor `getWorkflows()`. -/
def getWorkflows (fs : FS) : Except Unit (List (String × Json) × List String) :=
  componentAccessor fs "Workflows"

/-- Accessor `getTasks()`. -/
def getTasks (fs : FS) : Except Unit (List (String × Json) × List String) :=
  componentAccessor fs "Tasks"

/-- Accessor `getViews()`. -/
def getViews (fs : FS) : Except Unit (List (String × Json) × List String) :=
  componentAccessor fs "Views"

/-- Accessor `getFunctions()`. -/
def getFunctions (fs : FS) : Except Unit (List (String × Json) × List String) :=
  componentAccessor fs "Functions"

/-- Accessor `getExtensions()`. -/
def getExtensions (fs : FS) : Except Unit (List (String × Json) × List String) :=
  componentAccessor fs "Extensions"

/-- Function `getAvailableTypes()`: a static list; the function ignores the
filesystem entirely. -/
def getAvailableTypes (_fs : FS) : List String :=
  ["schemas", "workflows", "tasks", "views", "functions", "extensions"]

/-- Function `getDomainName()`: the raw result of `findDomainDirectory()`. -/
def getDomainName (fs : FS) : Except Unit (Option String) :=
  findDomainDirectory fs

/-! Claim C1: domain discovery returns the first qualifying entry -/

/-- Spec-side restatement of the C1 qualification test, written from the
claim's words: the entry is a directory, not hidden, not `node_modules`
or `dist`, and at least one of the paths `Schemas`, `Workflows`, `Tasks`
exists beneath it. -/
def specQualifies (fs : FS) (e : Dirent) : Bool :=
  e.isDirectory && !(strStartsWith e.name ".") &&
    e.name != "node_modules" && e.name != "dist" &&
    (fs.existsSync (pathJoin e.name "Schemas") || fs.existsSync (pathJoin e.name "Workflows") ||
      fs.existsSync (pathJoin e.name "Tasks"))

theorem specQualifies_eq (fs : FS) (e : Dirent) :
    specQualifies fs e = (domainFilter e && hasVnextMarker fs e.name) := by
  simp only [specQualifies, domainFilter, hasVnextMarker, Bool.and_assoc]

theorem findDomainLoop_eq_find (fs : FS) (l : List Dirent) :
    findDomainLoop fs l = (l.find? (specQualifies fs)).map Dirent.name := by
  induction l with
  | nil => rfl
  | cons e rest ih =>
    cases hf : domainFilter e with
    | true =>
      cases hm : hasVnextMarker fs e.name with
      | true =>
        have hq : specQualifies fs e = true := by rw [specQualifies_eq, hf, hm]; rfl
        simp [findDomainLoop, hf, hm, List.find?, hq]
      | false =>
        have hq : specQualifies fs e = false := by rw [specQualifies_eq, hf, hm]; rfl
        simp [findDomainLoop, hf, hm, List.find?, hq, ih]
    | false =>
      have hq : specQualifies fs e = false := by rw [specQualifies_eq, hf]; rfl
      simp [findDomainLoop, hf, List.find?, hq, ih]

/-- C1: `findDomainDirectory` enumerates the working-directory listing in
order, skips every entry that is not a directory, is hidden, or is named
`node_modules` or `dist`, and returns the name of the first remaining
entry beneath which one of `Schemas`, `Workflows`, `Tasks` exists; it
returns null when no entry qualifies (the result is exactly the first
entry satisfying `specQualifies`, mapped to its name). -/
theorem findDomainDirectory_first_qualifying (fs : FS) (entries : List Dirent)
    (h : fs.readdir "." = some entries) :
    findDomainDirectory fs = .ok ((entries.find? (specQualifies fs)).map Dirent.name) := by
  simp [findDomainDirectory, h, findDomainLoop_eq_find]

/-- A concrete working-directory listing: a hidden directory, the two
reserved directories, a plain file, a directory without markers, and a
domain directory `core` carrying a `Workflows` marker. -/
def entriesW : List Dirent :=
  [⟨".git", .dir⟩, ⟨"node_modules", .dir⟩, ⟨"dist", .dir⟩, ⟨"README.md", .file⟩,
    ⟨"docs", .dir⟩, ⟨"core", .dir⟩]

/-- A concrete filesystem around `entriesW`: only `core/Workflows` exists. -/
def fsW : FS where
  readdir := fun p => if p = "." then some entriesW else none
  existsSync := fun p => p = "core/Workflows"
  readFile := fun _ => none
  parse := fun _ => none

theorem findDomainDirectory_first_qualifying_witness :
    findDomainDirectory fsW = .ok ((entriesW.find? (specQualifies fsW)).map Dirent.name) ∧
      (entriesW.find? (specQualifies fsW)).map Dirent.name = some "core" :=
  ⟨findDomainDirectory_first_qualifying fsW entriesW (by decide), by decide⟩

/-! Claim C3: no qualifying subdirectory means null domain and empty mappings -/

/-- C3: whenever the working-directory listing contains no non-hidden,
non-reserved subdirectory with a `Schemas`/`Workflows`/`Tasks` marker,
`getDomainName` returns null and every component accessor returns an
empty mapping (with an empty warning log). -/
theorem accessors_empty_of_no_domain (fs : FS) (entries : List Dirent)
    (h : fs.readdir "." = some entries)
    (hnone : ∀ e ∈ entries, specQualifies fs e = false) :
    getDomainName fs = .ok none ∧
      getSchemas fs = .ok ([], []) ∧ getWorkflows fs = .ok ([], []) ∧
      getTasks fs = .ok ([], []) ∧ getViews fs = .ok ([], []) ∧
      getFunctions fs = .ok ([], []) ∧ getExtensions fs = .ok ([], []) := by
  have hfind : entries.find? (specQualifies fs) = none := by
    rw [List.find?_eq_none]
    intro x hx
    simp [hnone x hx]
  have hdom : findDomainDirectory fs = .ok none := by
    simp [findDomainDirectory, h, findDomainLoop_eq_find, hfind]
  exact ⟨hdom, by simp [getSchemas, componentAccessor, hdom],
    by simp [getWorkflows, componentAccessor, hdom],
    by simp [getTasks, componentAccessor, hdom],
    by simp [getViews, componentAccessor, hdom],
    by simp [getFunctions, componentAccessor, hdom],
    by simp [getExtensions, componentAccessor, hdom]⟩

/-- A working directory with entries but no qualifying domain directory:
nothing exists on disk besides the listed entries. -/
def fsNoDomain : FS where
  readdir := fun p => if p = "." then
    some [⟨".git", .dir⟩, ⟨"src", .dir⟩, ⟨"README.md", .file⟩] else none
  existsSync := fun _ => false
  readFile := fun _ => none
  parse := fun _ => none

theorem accessors_empty_of_no_domain_witness :
    getDomainName fsNoDomain = .ok none ∧
      getSchemas fsNoDomain = .ok ([], []) ∧ getWorkflows fsNoDomain = .ok ([], []) ∧
      getTasks fsNoDomain = .ok ([], []) ∧ getViews fsNoDomain = .ok ([], []) ∧
      getFunctions fsNoDomain = .ok ([], []) ∧ getExtensions fsNoDomain = .ok ([], []) :=
  accessors_empty_of_no_domain fsNoDomain
    [⟨".git", .dir⟩, ⟨"src", .dir⟩, ⟨"README.md", .file⟩] (by decide) (by decide)

/-! Claim C4: a missing component directory loads as an empty mapping -/

/-- C4: `loadJsonFiles` on a path that does not exist returns an empty
mapping (and an empty warning log) rather than an error. -/
theorem loadJsonFiles_missing_dir (fs : FS) (dirPath : String)
    (h : fs.existsSync dirPath = false) :
    loadJsonFiles fs dirPath = .ok ([], []) := by
  simp [loadJsonFiles, h]

theorem loadJsonFiles_missing_dir_witness :
    loadJsonFiles fsNoDomain "core/Schemas" = .ok ([], []) :=
  loadJsonFiles_missing_dir fsNoDomain "core/Schemas" (by decide)

/-! Claim C6: `getDomainConfig` returns the parsed config or null -/

/-- C6: `getDomainConfig` returns null when `vnext.config.json` is absent
or unreadable, the parsed object when it reads and parses, and null
(rather than an exception) when its content fails to parse. -/
theorem getDomainConfig_cases (fs : FS) (c : String) (v : Json) :
    (fs.readFile "vnext.config.json" = none → getDomainConfig fs = none) ∧
      (fs.readFile "vnext.config.json" = some c → fs.parse c = some v →
        getDomainConfig fs = some v) ∧
      (fs.readFile "vnext.config.json" = some c → fs.parse c = none →
        getDomainConfig fs = none) :=
  ⟨fun h => by simp [getDomainConfig, h],
    fun h hp => by simp [getDomainConfig, h, hp],
    fun h hp => by simp [getDomainConfig, h, hp]⟩

/-- A working root carrying a readable, well-formed `vnext.config.json`. -/
def fsCfg : FS where
  readdir := fun _ => none
  existsSync := fun _ => false
  readFile := fun p => if p = "vnext.config.json" then some "cfg-content" else none
  parse := fun c => if c = "cfg-content" then some (Json.obj []) else none

theorem getDomainConfig_cases_witness :
    getDomainConfig fsCfg = some (Json.obj []) :=
  (getDomainConfig_cases fsCfg "cfg-content" (Json.obj [])).2.1 (by decide) rfl

/-! Claim C7: an unreadable working directory propagates to every accessor -/

/-- C7: when listing the working directory itself fails, `getDomainName`
and all six component accessors propagate the error instead of returning
null or an empty mapping. -/
theorem accessors_propagate_cwd_error (fs : FS) (h : fs.readdir "." = none) :
    getDomainName fs = .error () ∧
      getSchemas fs = .error () ∧ getWorkflows fs = .error () ∧
      getTasks fs = .error () ∧ getViews fs = .error () ∧
      getFunctions fs = .error () ∧ getExtensions fs = .error () := by
  have hdom : findDomainDirectory fs = .error () := by
    simp [findDomainDirectory, h]
  exact ⟨hdom, by simp [getSchemas, componentAccessor, hdom],
    by simp [getWorkflows, componentAccessor, hdom],
    by simp [getTasks, componentAccessor, hdom],
    by simp [getViews, componentAccessor, hdom],
    by simp [getFunctions, componentAccessor, hdom],
    by simp [getExtensions, componentAccessor, hdom]⟩

/-- A filesystem whose every directory read throws. -/
def fsUnreadable : FS where
  readdir := fun _ => none
  existsSync := fun _ => false
  readFile := fun _ => none
  parse := fun _ => none

theorem accessors_propagate_cwd_error_witness :
    getDomainName fsUnreadable = .error () ∧
      getSchemas fsUnreadable = .error () ∧ getWorkflows fsUnreadable = .error () ∧
      getTasks fsUnreadable = .error () ∧ getViews fsUnreadable = .error () ∧
      getFunctions fsUnreadable = .error () ∧ getExtensions fsUnreadable = .error () :=
  accessors_propagate_cwd_error fsUnreadable rfl

/-! Claim C8: `getAvailableTypes` is the fixed six-element list -/

/-- C8: `getAvailableTypes` returns exactly the six canonical type names
in order, and its result is the same for any two filesystem states. -/
theorem getAvailableTypes_static (fs fs' : FS) :
    getAvailableTypes fs =
        ["schemas", "workflows", "tasks", "views", "functions", "extensions"] ∧
      getAvailableTypes fs = getAvailableTypes fs' :=
  ⟨rfl, rfl⟩

/-! Claim C9: every accessor is a deterministic function of the filesystem -/

/-- Two successive invocations of an accessor against an unchanged
filesystem state. -/
def invokeTwice {α : Type} (f : FS → α) (fs : FS) : α × α :=
  (f fs, f fs)

/-- C9: for every accessor of the module and every fixed filesystem
state, two successive invocations return equal results — the module
keeps no mutable state between calls. -/
theorem accessors_idempotent (fs : FS) :
    (invokeTwice getDomainConfig fs).1 = (invokeTwice getDomainConfig fs).2 ∧
      (invokeTwice getSchemas fs).1 = (invokeTwice getSchemas fs).2 ∧
      (invokeTwice getWorkflows fs).1 = (invokeTwice getWorkflows fs).2 ∧
      (invokeTwice getTasks fs).1 = (invokeTwice getTasks fs).2 ∧
      (invokeTwice getViews fs).1 = (invokeTwice getViews fs).2 ∧
      (invokeTwice getFunctions fs).1 = (invokeTwice getFunctions fs).2 ∧
      (invokeTwice getExtensions fs).1 = (invokeTwice getExtensions fs).2 ∧
      (invokeTwice getAvailableTypes fs).1 = (invokeTwice getAvailableTypes fs).2 ∧
      (invokeTwice getDomainName fs).1 = (invokeTwice getDomainName fs).2 :=
  ⟨rfl, rfl, rfl, rfl, rfl, rfl, rfl, rfl, rfl⟩

/-! Claim C10: a marker that is a regular file still selects the domain -/

theorem findDomainLoop_append_skip (fs : FS) (pre l : List Dirent)
    (hpre : ∀ e ∈ pre, domainFilter e = false) :
    findDomainLoop fs (pre ++ l) = findDomainLoop fs l := by
  induction pre with
  | nil => rfl
  | cons e rest ih =>
    have he : domainFilter e = false := hpre e (List.mem_cons_self e rest)
    rw [List.cons_append, findDomainLoop, if_neg (by simp [he])]
    exact ih fun x hx => hpre x (List.mem_cons_of_mem e hx)

/-- C10: the marker test of domain discovery checks only path existence:
whenever the first non-hidden, non-reserved subdirectory `d` of the
working root has a listing containing an entry named `Schemas`,
`Workflows`, or `Tasks` that is a regular file (any other entries
permitted alongside it), and the corresponding path `<d>/<m>` exists,
`d` is still selected as the domain — no check that the marker is a
directory. -/
theorem domain_selected_with_file_marker (fs : FS) (d m : String)
    (pre rest dentries : List Dirent)
    (hrd : fs.readdir "." = some (pre ++ ⟨d, .dir⟩ :: rest))
    (hpre : ∀ e ∈ pre, domainFilter e = false)
    (hdot : strStartsWith d "." = false)
    (h1 : d ≠ "node_modules") (h2 : d ≠ "dist")
    (hm : m = "Schemas" ∨ m = "Workflows" ∨ m = "Tasks")
    (hmark : fs.existsSync (pathJoin d m) = true)
    (_hfile : fs.readdir d = some dentries)
    (_hmem : (⟨m, .file⟩ : Dirent) ∈ dentries) :
    getDomainName fs = .ok (some d) := by
  have hf : domainFilter ⟨d, .dir⟩ = true := by
    simp [domainFilter, Dirent.isDirectory, hdot, h1, h2]
  have hmk : hasVnextMarker fs d = true := by
    rcases hm with h | h | h <;> subst h <;> simp [hasVnextMarker, hmark]
  simp only [getDomainName, findDomainDirectory, hrd]
  rw [findDomainLoop_append_skip fs pre _ hpre]
  simp only [findDomainLoop, if_pos hf, if_pos hmk]

/-- A working root whose only candidate domain `core` lists several
entries, among them `Tasks` as a regular file (not a directory); the
path `core/Tasks` exists. -/
def fsFileMarker : FS where
  readdir := fun p =>
    if p = "." then some [⟨".git", .dir⟩, ⟨"core", .dir⟩]
    else if p = "core" then
      some [⟨"notes.txt", .file⟩, ⟨"Tasks", .file⟩, ⟨"Views", .dir⟩]
    else none
  existsSync := fun p => p = "core/Tasks"
  readFile := fun _ => none
  parse := fun _ => none

theorem domain_selected_with_file_marker_witness :
    getDomainName fsFileMarker = .ok (some "core") :=
  domain_selected_with_file_marker fsFileMarker "core" "Tasks" [⟨".git", .dir⟩] []
    [⟨"notes.txt", .file⟩, ⟨"Tasks", .file⟩, ⟨"Views", .dir⟩]
    (by decide) (by decide) (by decide) (by decide) (by decide)
    (Or.inr (Or.inr rfl)) (by decide) (by decide) (by decide)

/-! Claim C2: one malformed file never aborts loading the others -/

/-- C2: a component directory whose direct entries are a valid `a.json`
(parsing to the object with single member `x` mapped to 1) and a
malformed `b.json` loads, in either listing order, to exactly the
mapping with single key `a`, with one warning naming `b.json` and no
exception — the parse failure of one file does not prevent the other
from being loaded. -/
theorem loadJsonFiles_partial_failure (fs : FS) (dirPath ca cb : String)
    (entries : List Dirent)
    (hex : fs.existsSync dirPath = true)
    (hrd : fs.readdir dirPath = some entries)
    (horder : entries = [⟨"a.json", .file⟩, ⟨"b.json", .file⟩] ∨
      entries = [⟨"b.json", .file⟩, ⟨"a.json", .file⟩])
    (hra : fs.readFile (pathJoin dirPath "a.json") = some ca)
    (hpa : fs.parse ca = some (Json.obj [("x", Json.num 1)]))
    (hrb : fs.readFile (pathJoin dirPath "b.json") = some cb)
    (hpb : fs.parse cb = none) :
    loadJsonFiles fs dirPath = .ok ([("a", Json.obj [("x", Json.num 1)])], ["b.json"]) := by
  have hk : jsReplaceFirst "a.json" ".json" = "a" := rfl
  have he1 : strEndsWith "a.json" ".json" = true := by decide
  have he2 : strEndsWith "b.json" ".json" = true := by decide
  rcases horder with h | h <;> subst h <;>
    simp [loadJsonFiles, hex, hrd, loadEntry, Dirent.isFile, he1, he2, hk,
      hra, hpa, hrb, hpb, upsert]

/-- A component directory `D` with a well-formed `a.json` and a
malformed `b.json`; the parser accepts only the content of `a.json`. -/
def fsPartial : FS where
  readdir := fun p =>
    if p = "D" then some [⟨"a.json", .file⟩, ⟨"b.json", .file⟩] else none
  existsSync := fun p => p = "D"
  readFile := fun p =>
    if p = "D/a.json" then some "a-content"
    else if p = "D/b.json" then some "b-content"
    else none
  parse := fun c =>
    if c = "a-content" then some (Json.obj [("x", Json.num 1)]) else none

theorem loadJsonFiles_partial_failure_witness :
    loadJsonFiles fsPartial "D" =
      .ok ([("a", Json.obj [("x", Json.num 1)])], ["b.json"]) :=
  loadJsonFiles_partial_failure fsPartial "D" "a-content" "b-content"
    [⟨"a.json", .file⟩, ⟨"b.json", .file⟩]
    (by decide) (by decide) (Or.inl rfl) (by decide) rfl (by decide) rfl

/-! Claim C5: the mapping key removes the first occurrence of the suffix -/

/-- A component directory `D` whose single file is named `a.jsonb.json`
and parses successfully. -/
def fsStem : FS where
  readdir := fun p => if p = "D" then some [⟨"a.jsonb.json", .file⟩] else none
  existsSync := fun p => p = "D"
  readFile := fun p => if p = "D/a.jsonb.json" then some "stem-content" else none
  parse := fun c => if c = "stem-content" then some (Json.num 1) else none

/-- C5 fails as stated: loading a directory whose file is named
`a.jsonb.json` yields the key `ab.json` — JavaScript `replace` removes
the first occurrence of `.json` — and not `a.jsonb`, the name with the
trailing suffix stripped. -/
theorem loadJsonFiles_stem_counterexample :
    loadJsonFiles fsStem "D" = .ok ([("ab.json", Json.num 1)], []) ∧
      ("ab.json" : String) ≠ "a.jsonb" :=
  ⟨rfl, by decide⟩

/-- C5 (amended): for a direct file entry whose name ends in `.json` and
whose content parses, the parsed value is stored under the key obtained
by removing the FIRST occurrence of the substring `.json` from the
filename (which coincides with stripping the trailing suffix exactly
when `.json` first occurs at the end of the name). -/
theorem loadJsonFiles_key_first_occurrence (fs : FS) (dirPath n c : String) (v : Json)
    (hex : fs.existsSync dirPath = true)
    (hrd : fs.readdir dirPath = some [⟨n, .file⟩])
    (hend : strEndsWith n ".json" = true)
    (hrf : fs.readFile (pathJoin dirPath n) = some c)
    (hp : fs.parse c = some v) :
    loadJsonFiles fs dirPath = .ok ([(jsReplaceFirst n ".json", v)], []) := by
  simp [loadJsonFiles, hex, hrd, loadEntry, Dirent.isFile, hend, hrf, hp, upsert]

theorem loadJsonFiles_key_first_occurrence_witness :
    loadJsonFiles fsStem "D" =
      .ok ([(jsReplaceFirst "a.jsonb.json" ".json", Json.num 1)], []) :=
  loadJsonFiles_key_first_occurrence fsStem "D" "a.jsonb.json" "stem-content"
    (Json.num 1) (by decide) (by decide) (by decide) (by decide) rfl

end VnextSysFlow
